import Mathlib

/-!
Shallow embedding of the marketpalace raise contract (`src/subscribe.rs`,
`src/redemption.rs`) and proofs about its handlers.

Handlers are modelled as pure functions from the configuration (`State`),
the persistent storage (`Storage`) and the message context to a pair of
the storage as the handler leaves it and an `HResult Response`.  The
storage component is returned even when the handler fails, because the
Rust code mutates host storage in place and an early `return Err(..)`
does not undo writes already made (the host's transactional rollback
does that, outside the handler).  Host queries (attributes, wasm-smart,
balances, markers) are passed in as `Except`-valued functions.
-/

namespace Raise

/-- Outcome of a handler body: a returned value, a returned contract
error, or a Rust panic (`unwrap` on a failed query). -/
inductive HResult (α : Type) where
  | ok (a : α)
  | err (msg : String)
  | panicked
deriving DecidableEq

def HResult.isOk {α : Type} : HResult α → Bool
  | .ok _ => true
  | _ => false

def HResult.isErr {α : Type} : HResult α → Bool
  | .err _ => true
  | _ => false

/-- A coin attached to a message (`cosmwasm_std::Coin`). -/
structure Coin where
  denom : String
  amount : Nat
deriving DecidableEq

/-- `msg.rs::Redemption` as used by `redemption.rs`. -/
structure Redemption where
  subscription : String
  capital : Nat
  asset : Nat
  available_epoch_seconds : Option Nat
deriving DecidableEq

/-- `msg.rs::AssetExchange` as used by `subscribe.rs`: all four fields
optional, the numeric ones signed. -/
structure AssetExchange where
  investment : Option Int
  commitment_in_shares : Option Int
  capital : Option Int
  date : Option Nat
deriving DecidableEq

/-- `msg.rs::AcceptSubscription`. -/
structure AcceptSubscription where
  subscription : String
  commitment_in_capital : Nat
deriving DecidableEq

/-- `sub_msg.rs::SubState` as consumed by `try_accept_subscriptions`
(fields taken from the mock in `subscribe.rs` tests). -/
structure SubState where
  admin : String
  lp : String
  raise : String
  commitment_denom : String
  investment_denom : String
  capital_denom : String
  capital_per_share : Nat
deriving DecidableEq

/-- `sub_msg.rs::SubInstantiateMsg` with the fields `subscribe.rs`
populates when proposing a subscription. -/
structure SubInstantiateMsg where
  admin : String
  lp : String
  commitment_denom : String
  investment_denom : String
  capital_denom : String
  capital_per_share : Nat
  initial_commitment : Option Nat
deriving DecidableEq

/-- `state.rs::State`: the raise configuration singleton. -/
structure State where
  gp : String
  recovery_admin : String
  acceptable_accreditations : List String
  commitment_denom : String
  investment_denom : String
  capital_denom : String
  capital_per_share : Nat
  subscription_code_id : Nat
deriving DecidableEq

/-- Modelled from the spec: `State::not_evenly_divisble` lives in
`state.rs`, which is not under `src/`.  Spec §4.3 step 1: "If
`commitment_in_capital mod capital_per_share ≠ 0` → fail". -/
def State.not_evenly_divisble (s : State) (c : Nat) : Bool :=
  c % s.capital_per_share != 0

/-- Modelled from the spec: `State::capital_to_shares` lives in
`state.rs`, which is not under `src/`.  Spec §4.3 step 4:
`commitment_in_capital / capital_per_share`. -/
def State.capital_to_shares (s : State) (c : Nat) : Nat :=
  c / s.capital_per_share

/-- The keyed map `subscription address → list<AssetExchange>`. -/
abbrev AEMap := List (String × List AssetExchange)

def aeLookup (m : AEMap) (k : String) : Option (List AssetExchange) :=
  match m with
  | [] => none
  | (k', v) :: rest => if k' == k then some v else aeLookup rest k

/-- `Bucket::save`: bind `k` to `v`, replacing any previous binding. -/
def aeSave (m : AEMap) (k : String) (v : List AssetExchange) : AEMap :=
  match m with
  | [] => [(k, v)]
  | (k', v') :: rest => if k' == k then (k, v) :: rest else (k', v') :: aeSave rest k v

/-- `Bucket::remove`: delete the binding for `k`. -/
def aeRemove (m : AEMap) (k : String) : AEMap :=
  m.filter (fun p => p.1 != k)

/-- Persistent storage of the contract (everything but the config). -/
structure Storage where
  pending : List String
  eligible : List String
  accepted : List String
  asset_exchanges : AEMap
  outstanding : Option (List Redemption)
deriving DecidableEq

/-- Outbound host messages the handlers emit. -/
inductive Msg where
  | instantiate (contract_admin : Option String) (code_id : Nat)
      (init : SubInstantiateMsg) (label : String)
  | send (to_address : String) (amount : Nat) (denom : String)
  | burn (amount : Nat) (denom : String)
deriving DecidableEq

def Msg.isInstantiate : Msg → Bool
  | .instantiate _ _ _ _ => true
  | _ => false

/-- A sub-message: a message plus the reply id it is tagged with. -/
structure SubMsgM where
  msg : Msg
  reply_id : Nat
deriving DecidableEq

structure Response where
  submessages : List SubMsgM
  messages : List Msg
  attributes : List (String × String)
deriving DecidableEq

def Response.empty : Response := ⟨[], [], []⟩

/-- HashSet-style removal on the address lists. -/
def removeElem (l : List String) (x : String) : List String :=
  l.filter (fun y => y != x)

/-- HashSet-style insertion on the address lists. -/
def insertElem (l : List String) (x : String) : List String :=
  if l.contains x then l else x :: l

/-- `HashSet::intersection(..).count() > 0`. -/
def intersects (a b : List String) : Bool :=
  a.any (fun x => b.contains x)

/-- Remove the first element satisfying `p`, returning it and the rest
(`Vec::position` followed by `Vec::remove`). -/
def extractFirst? {α : Type} (p : α → Bool) : List α → Option (α × List α)
  | [] => none
  | x :: rest =>
    if p x then some (x, rest)
    else match extractFirst? p rest with
      | some (y, l) => some (y, x :: l)
      | none => none

/-! ## `redemption.rs` handlers -/

/-- `try_issue_redemptions`.  Note the Rust appends the *existing* list
onto the supplied one (`redemptions.append(&mut existing)`), so the
saved list is `redemptions ++ existing`. -/
def try_issue_redemptions (state : State) (store : Storage) (sender : String)
    (redemptions : List Redemption) : Storage × HResult Response :=
  if sender != state.gp then (store, .err "only gp can issue redemptions")
  else
    let redemptions' :=
      match store.outstanding with
      | some existing => redemptions ++ existing
      | none => redemptions
    ({ store with outstanding := some redemptions' }, .ok Response.empty)

/-- Predicate the redemption handlers match records with: the full
`(subscription, asset, capital)` triple, ignoring the epoch field. -/
def redemptionMatch (sub : String) (asset capital : Nat) (it : Redemption) : Bool :=
  it.subscription == sub && it.asset == asset && it.capital == capital

/-- The cancel loop body for a single supplied redemption. -/
def cancelOne (existing : List Redemption) (r : Redemption) : Option (List Redemption) :=
  match extractFirst? (redemptionMatch r.subscription r.asset r.capital) existing with
  | some (_, rest) => some rest
  | none => none

/-- The cancel loop over the whole supplied batch. -/
def cancelAll (existing : List Redemption) : List Redemption → Option (List Redemption)
  | [] => some existing
  | r :: rest =>
    match cancelOne existing r with
    | some existing' => cancelAll existing' rest
    | none => none

/-- `try_cancel_redemptions`. -/
def try_cancel_redemptions (state : State) (store : Storage) (sender : String)
    (redemptions : List Redemption) : Storage × HResult Response :=
  if sender != state.gp then (store, .err "only gp can cancel redemptions")
  else
    match store.outstanding with
    | none => (store, .err "no outstanding redemptions to cancel")
    | some existing =>
      match cancelAll existing redemptions with
      | some existing' =>
        ({ store with outstanding := some existing' }, .ok Response.empty)
      | none => (store, .err "no redemption found")

/-- `try_claim_redemption`.  `markerQ` models
`ProvenanceQuerier::get_marker_by_denom`, returning the marker address
for a denom. -/
def try_claim_redemption (state : State) (store : Storage) (now : Nat)
    (sender : String) (funds : List Coin) (asset capital : Nat) (to_addr : String)
    (memo : Option String) (markerQ : String → Except String String) :
    Storage × HResult Response :=
  match store.outstanding with
  | none => (store, .err "outstanding redemptions singleton is empty")
  | some redemptions =>
    match extractFirst? (redemptionMatch sender asset capital) redemptions with
    | none => (store, .err "no redemption for subscription")
    | some (redemption, redemptions') =>
      if (match redemption.available_epoch_seconds with
          | some available => decide (available > now)
          | none => false)
      then (store, .err "redemption not yet available")
      else
        match funds.head? with
        | none => (store, .err "asset required for redemption")
        | some sent =>
          if sent.denom != state.investment_denom then
            (store, .err "payment should be made in investment denom")
          else if sent.amount != redemption.asset then
            (store, .err "sent funds should match specified asset")
          else
            let store' := { store with outstanding := some redemptions' }
            match markerQ state.commitment_denom with
            | .error e => (store', .err e)
            | .ok marker_address =>
              (store', .ok
                { submessages := []
                  messages :=
                    [ Msg.send to_addr redemption.capital state.capital_denom,
                      Msg.send marker_address redemption.asset state.investment_denom,
                      Msg.burn redemption.asset state.investment_denom ]
                  attributes :=
                    match memo with
                    | some m => [("memo", m)]
                    | none => [] })

/-! ## `subscribe.rs` handlers -/

/-- The `attributes` helper in `subscribe.rs`: it calls `.unwrap()` on
the attribute query, so a failed query is a panic, not a returned
error. -/
def attributes (attrQ : String → Except String (List String)) (lp : String) :
    HResult (List String) :=
  match attrQ lp with
  | .ok attrs => .ok attrs
  | .error _ => .panicked

/-- The instantiate sub-message `try_propose_subscription` emits,
tagged with reply id 1 (eligible) or 0. -/
def propose_submsg (state : State) (contract_address sender : String)
    (initial_commitment : Option Nat) (eligible : Bool) : SubMsgM :=
  { msg := Msg.instantiate (some contract_address) state.subscription_code_id
      { admin := state.recovery_admin
        lp := sender
        commitment_denom := state.commitment_denom
        investment_denom := state.investment_denom
        capital_denom := state.capital_denom
        capital_per_share := state.capital_per_share
        initial_commitment := initial_commitment }
      "establish subscription"
    reply_id := if eligible then 1 else 0 }

/-- The response `try_propose_subscription` builds: one instantiate
sub-message and the `eligible=<bool>` attribute. -/
def propose_response (state : State) (contract_address sender : String)
    (initial_commitment : Option Nat) (eligible : Bool) : Response :=
  { submessages := [propose_submsg state contract_address sender initial_commitment eligible]
    messages := []
    attributes := [("eligible", if eligible then "true" else "false")] }

/-- `try_propose_subscription`. -/
def try_propose_subscription (state : State) (store : Storage)
    (contract_address sender : String) (initial_commitment : Option Nat)
    (attrQ : String → Except String (List String)) : Storage × HResult Response :=
  if state.acceptable_accreditations.isEmpty then
    (store, .ok (propose_response state contract_address sender initial_commitment true))
  else
    match attributes attrQ sender with
    | .panicked => (store, .panicked)
    | .err e => (store, .err e)
    | .ok attrs =>
      let eligible := intersects attrs state.acceptable_accreditations
      (store, .ok (propose_response state contract_address sender initial_commitment eligible))

/-- The per-subscription loop of `try_close_subscriptions`.  `balQ`
models `querier.query_balance(addr, denom)`.  The asset-exchange map is
returned even on error because `Bucket::remove` mutates storage inside
the loop; the three sets are local copies saved only at the end. -/
def closeLoop (state : State) (balQ : String → String → Except String Nat)
    (subs : List String) (p e a : List String) (axs : AEMap) :
    AEMap × HResult (List String × List String × List String) :=
  match subs with
  | [] => (axs, .ok (p, e, a))
  | sub :: rest =>
    if p.contains sub then
      closeLoop state balQ rest (removeElem p sub) e a axs
    else if e.contains sub then
      closeLoop state balQ rest p (removeElem e sub) a axs
    else if a.contains sub then
      match balQ sub state.commitment_denom with
      | .error msg => (axs, .err msg)
      | .ok remaining_commitment =>
        if remaining_commitment == 0 then
          closeLoop state balQ rest p e (removeElem a sub) (aeRemove axs sub)
        else (axs, .err "sub still has remaining commitment")
    else (axs, .err "no subscription pending or accepted to close")

/-- `try_close_subscriptions`. -/
def try_close_subscriptions (state : State) (store : Storage) (sender : String)
    (subscriptions : List String) (balQ : String → String → Except String Nat) :
    Storage × HResult Response :=
  if sender != state.gp then (store, .err "only gp can close subscriptions")
  else
    match closeLoop state balQ subscriptions store.pending store.eligible
        store.accepted store.asset_exchanges with
    | (axs', .ok (p', e', a')) =>
      ({ store with
          pending := p'
          eligible := e'
          accepted := a'
          asset_exchanges := axs' }, .ok Response.empty)
    | (axs', .err msg) => ({ store with asset_exchanges := axs' }, .err msg)
    | (axs', .panicked) => ({ store with asset_exchanges := axs' }, .panicked)

/-- The pending/eligible branch of one `try_accept_subscriptions` loop
iteration: which sets the subscription leaves, or the error/panic it
causes.  `subQ` models the wasm-smart `GetState` query on the
subscription contract (its error propagates via `?`); the attribute
query inside goes through `attributes` and panics on failure. -/
def acceptBranch (state : State) (subQ : String → Except String SubState)
    (attrQ : String → Except String (List String)) (sub : String)
    (p e : List String) : HResult (List String × List String) :=
  if e.contains sub then .ok (p, removeElem e sub)
  else if p.contains sub then
    if state.acceptable_accreditations.isEmpty then .ok (removeElem p sub, e)
    else
      match subQ sub with
      | .error msg => .err msg
      | .ok sub_state =>
        match attributes attrQ sub_state.lp with
        | .panicked => .panicked
        | .err msg => .err msg
        | .ok attrs =>
          if intersects attrs state.acceptable_accreditations then
            .ok (removeElem p sub, e)
          else .err "subscription owner must have one of acceptable accreditations"
  else .err "subscription must either be pending or eligible"

/-- The queue entry `try_accept_subscriptions` stores for an accepted
subscription. -/
def acceptEntry (state : State) (commitment_in_capital : Nat) : AssetExchange :=
  { investment := none
    commitment_in_shares := some (Int.ofNat (state.capital_to_shares commitment_in_capital))
    capital := none
    date := none }

/-- The batch loop of `try_accept_subscriptions`.  The `i64::try_from`
on the share count fails when the quotient exceeds `2^63 - 1`. -/
def acceptLoop (state : State) (subQ : String → Except String SubState)
    (attrQ : String → Except String (List String))
    (accepts : List AcceptSubscription) (p e a : List String) (axs : AEMap) :
    AEMap × HResult (List String × List String × List String) :=
  match accepts with
  | [] => (axs, .ok (p, e, a))
  | accept :: rest =>
    if state.not_evenly_divisble accept.commitment_in_capital then
      (axs, .err "accept amount must be evenly divisble by capital per share")
    else
      match acceptBranch state subQ attrQ accept.subscription p e with
      | .panicked => (axs, .panicked)
      | .err msg => (axs, .err msg)
      | .ok (p', e') =>
        if state.capital_to_shares accept.commitment_in_capital < 2 ^ 63 then
          acceptLoop state subQ attrQ rest p' e'
            (insertElem a accept.subscription)
            (aeSave axs accept.subscription
              [acceptEntry state accept.commitment_in_capital])
        else (axs, .err "out of range integral type conversion attempted")

/-- `try_accept_subscriptions`. -/
def try_accept_subscriptions (state : State) (store : Storage) (sender : String)
    (accepts : List AcceptSubscription) (subQ : String → Except String SubState)
    (attrQ : String → Except String (List String)) : Storage × HResult Response :=
  if sender != state.gp then (store, .err "only gp can accept subscriptions")
  else
    match acceptLoop state subQ attrQ accepts store.pending store.eligible
        store.accepted store.asset_exchanges with
    | (axs', .ok (p', e', a')) =>
      ({ store with
          pending := p'
          eligible := e'
          accepted := a'
          asset_exchanges := axs' }, .ok Response.empty)
    | (axs', .err msg) => ({ store with asset_exchanges := axs' }, .err msg)
    | (axs', .panicked) => ({ store with asset_exchanges := axs' }, .panicked)

/-! ## Concrete fixtures used by witnesses and counterexamples -/

def tState : State :=
  { gp := "gp"
    recovery_admin := "marketpalace"
    acceptable_accreditations := []
    commitment_denom := "commitment_coin"
    investment_denom := "investment_coin"
    capital_denom := "stable_coin"
    capital_per_share := 100
    subscription_code_id := 100 }

def tStore : Storage :=
  { pending := ["sub_1"], eligible := [], accepted := [], asset_exchanges := [], outstanding := none }

/-- The fixture configuration with the accreditation gate on. -/
def tState506 : State := { tState with acceptable_accreditations := ["506c"] }

/-- A wasm-smart querier that always fails. -/
def noSubQ : String → Except String SubState := fun _ => .error "wasm query failed"

/-- An attribute querier that always fails. -/
def noAttrQ : String → Except String (List String) := fun _ => .error "attribute query failed"

/-- Fixture storage holding two outstanding redemptions. -/
def rStore : Storage :=
  { pending := [], eligible := [], accepted := [], asset_exchanges := [],
    outstanding := some [⟨"sub_1", 10000, 5000, none⟩, ⟨"sub_2", 10000, 5000, none⟩] }

/-! ## General lemmas about the list helpers -/

theorem mem_removeElem {l : List String} {x y : String} :
    x ∈ removeElem l y ↔ x ∈ l ∧ x ≠ y := by
  simp [removeElem, List.mem_filter, bne_iff_ne]

theorem removeElem_self_not_mem (l : List String) (x : String) : x ∉ removeElem l x := by
  simp [mem_removeElem]

theorem intersects_iff (a b : List String) :
    intersects a b = true ↔ ∃ x ∈ a, x ∈ b := by
  simp [intersects, List.any_eq_true]

theorem aeLookup_aeSave_self (m : AEMap) (k : String) (v : List AssetExchange) :
    aeLookup (aeSave m k v) k = some v := by
  induction m with
  | nil => simp [aeSave, aeLookup]
  | cons hd tl ih =>
    obtain ⟨k', v'⟩ := hd
    rw [aeSave]
    split
    · simp [aeLookup]
    · rw [aeLookup]
      split
      · simp_all
      · exact ih

theorem extractFirst?_eq_some {α : Type} {p : α → Bool} {l : List α} {x : α} {rest : List α}
    (h : extractFirst? p l = some (x, rest)) :
    p x = true ∧ rest.Sublist l ∧ rest.length + 1 = l.length := by
  induction l generalizing rest with
  | nil => simp [extractFirst?] at h
  | cons hd tl ih =>
    rw [extractFirst?] at h
    split at h
    · injection h with h1
      injection h1 with hx hrest
      subst hx
      subst hrest
      exact ⟨by assumption, List.sublist_cons_self hd tl, rfl⟩
    · split at h
      · injection h with h1
        injection h1 with hx hrest
        subst hx
        subst hrest
        rename_i heq
        obtain ⟨hp, hs, hl⟩ := ih heq
        exact ⟨hp, List.Sublist.cons₂ hd hs, by simpa using hl⟩
      · cases h

/-! ## C4: order of the lists in `try_issue_redemptions` -/

/-- C4 counterexample: with outstanding `[sub_1, sub_2]` and supplied
`[sub_3]`, the handler stores `[sub_3, sub_1, sub_2]` — the supplied
list comes first, not last as the claim states. -/
theorem issue_redemptions_order_counterexample :
    (try_issue_redemptions tState rStore "gp" [⟨"sub_3", 1, 2, none⟩]).1.outstanding =
      some [⟨"sub_3", 1, 2, none⟩, ⟨"sub_1", 10000, 5000, none⟩, ⟨"sub_2", 10000, 5000, none⟩]
    ∧ ([⟨"sub_3", 1, 2, none⟩, ⟨"sub_1", 10000, 5000, none⟩, ⟨"sub_2", 10000, 5000, none⟩]
        : List Redemption)
      ≠ [⟨"sub_1", 10000, 5000, none⟩, ⟨"sub_2", 10000, 5000, none⟩, ⟨"sub_3", 1, 2, none⟩] := by
  decide

/-- C4 amended: when the sender is the gp, `IssueRedemptions` replaces
the outstanding-redemptions singleton with the *supplied* list followed
by the previously stored list (initialising to the supplied list when
absent); any other sender gets an error and the storage is unchanged. -/
theorem issue_redemptions_prepends_supplied (state : State) (store : Storage)
    (sender : String) (redemptions : List Redemption) :
    (sender = state.gp →
      try_issue_redemptions state store sender redemptions =
        ({ store with outstanding := some (redemptions ++ store.outstanding.getD []) },
          .ok Response.empty))
    ∧ (sender ≠ state.gp →
      try_issue_redemptions state store sender redemptions =
        (store, .err "only gp can issue redemptions")) := by
  constructor
  · intro h
    subst h
    rw [try_issue_redemptions]
    cases ho : store.outstanding <;> simp [ho]
  · intro h
    rw [try_issue_redemptions]
    simp [h]

/-- Witness for the C4 amended theorem at concrete inputs. -/
theorem issue_redemptions_prepends_supplied_witness :
    try_issue_redemptions tState rStore "gp" [⟨"sub_3", 1, 2, none⟩] =
      ({ rStore with outstanding := some ([⟨"sub_3", 1, 2, none⟩] ++ rStore.outstanding.getD []) },
        .ok Response.empty)
    ∧ try_issue_redemptions tState rStore "bad_actor" [] =
      (rStore, .err "only gp can issue redemptions") :=
  ⟨(issue_redemptions_prepends_supplied tState rStore "gp" [⟨"sub_3", 1, 2, none⟩]).1 rfl,
   (issue_redemptions_prepends_supplied tState rStore "bad_actor" []).2 (by decide)⟩

/-! ## C5: a failing attribute query panics instead of propagating -/

/-- C5: the `attributes` helper calls `.unwrap()` on the attribute
query, so when the query fails, `try_propose_subscription` and the
pending branch of `try_accept_subscriptions` abort with a panic instead
of returning the error to the host. -/
theorem attribute_query_failure_panics :
    (try_propose_subscription tState506 tStore "cosmos2contract" "lp" (some 100) noAttrQ).2 =
      .panicked
    ∧ (try_accept_subscriptions tState506 tStore "gp" [⟨"sub_1", 20000⟩]
        (fun _ => .ok ⟨"marketpalace", "lp", "raise_1", "raise_1.commitment",
          "raise_1.investment", "stable_coin", 1⟩) noAttrQ).2 = .panicked := by
  decide

/-! ## C9: ClaimRedemption gates on the first matching record only -/

/-- C9: `try_claim_redemption` selects the first outstanding record
matching `(sender, asset, capital)` and evaluates the time gate on that
record alone; when that record's `available_epoch_seconds` is in the
future, the call fails with "redemption not yet available" regardless
of any later matching record. -/
theorem claim_redemption_first_match_time_gate (state : State) (store : Storage)
    (now : Nat) (sender : String) (funds : List Coin) (asset capital : Nat)
    (dest : String) (memo : Option String) (markerQ : String → Except String String)
    (rs rest : List Redemption) (r : Redemption) (t : Nat)
    (hout : store.outstanding = some rs)
    (hfind : extractFirst? (redemptionMatch sender asset capital) rs = some (r, rest))
    (hav : r.available_epoch_seconds = some t) (hfut : now < t) :
    try_claim_redemption state store now sender funds asset capital dest memo markerQ =
      (store, .err "redemption not yet available") := by
  rw [try_claim_redemption.eq_def, hout]
  simp only [hfind, hav]
  simp [hfut]

/-- Witness for C9: two records match `(sub_1, 5000, 10000)`; the first
is gated until epoch 200 while the second is available from epoch 0,
yet at time 100 the claim fails. -/
theorem claim_redemption_first_match_time_gate_witness :
    try_claim_redemption tState
        { rStore with outstanding := some [⟨"sub_1", 10000, 5000, some 200⟩,
            ⟨"sub_1", 10000, 5000, some 0⟩] }
        100 "sub_1" [⟨"investment_coin", 5000⟩] 5000 10000 "destination" none
        (fun _ => .ok "marker_addr") =
      ({ rStore with outstanding := some [⟨"sub_1", 10000, 5000, some 200⟩,
          ⟨"sub_1", 10000, 5000, some 0⟩] }, .err "redemption not yet available")
    ∧ redemptionMatch "sub_1" 5000 10000 ⟨"sub_1", 10000, 5000, some 0⟩ = true
    ∧ (0 : Nat) ≤ 100 :=
  ⟨claim_redemption_first_match_time_gate tState
      { rStore with outstanding := some [⟨"sub_1", 10000, 5000, some 200⟩,
          ⟨"sub_1", 10000, 5000, some 0⟩] }
      100 "sub_1" [⟨"investment_coin", 5000⟩] 5000 10000 "destination" none
      (fun _ => .ok "marker_addr")
      [⟨"sub_1", 10000, 5000, some 200⟩, ⟨"sub_1", 10000, 5000, some 0⟩]
      [⟨"sub_1", 10000, 5000, some 0⟩] ⟨"sub_1", 10000, 5000, some 200⟩ 200
      rfl (by decide) rfl (by decide),
   by decide, by decide⟩

theorem contains_eq_true_iff {l : List String} {x : String} :
    l.contains x = true ↔ x ∈ l := by
  simp

/-! ## C2: ClaimRedemption only inspects the first attached coin -/

/-- C2 counterexample: a funds list of two coins whose first coin is
`5000 investment_coin` succeeds, although the claim requires every call
with more than one attached coin to fail. -/
theorem claim_redemption_extra_coins_counterexample :
    (try_claim_redemption tState rStore 0 "sub_1"
        [⟨"investment_coin", 5000⟩, ⟨"stable_coin", 7⟩] 5000 10000 "destination" none
        (fun _ => .ok "marker_addr")).2.isOk = true
    ∧ ([⟨"investment_coin", 5000⟩, ⟨"stable_coin", 7⟩] : List Coin).length = 2 := by
  decide

/-- C2 amended: once a matching, time-available record is found and the
marker query succeeds, `try_claim_redemption` succeeds exactly when the
*first* attached coin exists, has denom `investment_denom` and amount
`record.asset`; coins after the first are ignored. -/
theorem claim_redemption_checks_first_coin (state : State) (store : Storage) (now : Nat)
    (sender : String) (funds : List Coin) (asset capital : Nat) (dest : String)
    (memo : Option String) (markerQ : String → Except String String)
    (rs rest : List Redemption) (r : Redemption) (addr : String)
    (hout : store.outstanding = some rs)
    (hfind : extractFirst? (redemptionMatch sender asset capital) rs = some (r, rest))
    (htime : ∀ t, r.available_epoch_seconds = some t → t ≤ now)
    (hmq : markerQ state.commitment_denom = .ok addr) :
    (try_claim_redemption state store now sender funds asset capital dest memo markerQ).2.isOk
      = true
      ↔ ∃ c cs, funds = c :: cs ∧ c.denom = state.investment_denom
          ∧ c.amount = r.asset := by
  rw [try_claim_redemption.eq_def, hout]
  simp only [hfind]
  have hgate : (match r.available_epoch_seconds with
      | some available => decide (available > now)
      | none => false) = false := by
    cases hav : r.available_epoch_seconds with
    | none => rfl
    | some t => simpa using Nat.not_lt.mpr (htime t hav)
  rw [hgate]
  cases funds with
  | nil => simp [HResult.isOk]
  | cons c cs =>
    simp only [List.head?, Bool.false_eq_true, if_false]
    by_cases hd : c.denom = state.investment_denom
    · by_cases ha : c.amount = r.asset
      · simp [hd, ha, hmq, HResult.isOk]
      · simp [hd, ha, HResult.isOk]
    · simp [hd, HResult.isOk]

/-- Witness for the C2 amended theorem: a single well-formed coin makes
the concrete claim succeed. -/
theorem claim_redemption_checks_first_coin_witness :
    ((try_claim_redemption tState rStore 0 "sub_1" [⟨"investment_coin", 5000⟩] 5000 10000
        "destination" none (fun _ => .ok "marker_addr")).2.isOk = true
      ↔ ∃ c cs, ([⟨"investment_coin", 5000⟩] : List Coin) = c :: cs
          ∧ c.denom = tState.investment_denom
          ∧ c.amount = (⟨"sub_1", 10000, 5000, none⟩ : Redemption).asset) :=
  claim_redemption_checks_first_coin tState rStore 0 "sub_1" [⟨"investment_coin", 5000⟩]
    5000 10000 "destination" none (fun _ => .ok "marker_addr")
    [⟨"sub_1", 10000, 5000, none⟩, ⟨"sub_2", 10000, 5000, none⟩]
    [⟨"sub_2", 10000, 5000, none⟩] ⟨"sub_1", 10000, 5000, none⟩ "marker_addr"
    rfl (by decide) (by intro t ht; cases ht) rfl

/-! ## C7: CancelRedemptions removes first triple-matches, all-or-nothing -/

theorem cancelAll_eq_some {ex rs ex' : List Redemption}
    (h : cancelAll ex rs = some ex') :
    ex'.Sublist ex ∧ ex'.length + rs.length = ex.length := by
  induction rs generalizing ex with
  | nil =>
    rw [cancelAll] at h
    injection h with h
    subst h
    exact ⟨List.Sublist.refl _, rfl⟩
  | cons r rest ih =>
    rw [cancelAll] at h
    cases hc : cancelOne ex r with
    | none => rw [hc] at h; cases h
    | some ex1 =>
      rw [hc] at h
      obtain ⟨hs, hl⟩ := ih h
      rw [cancelOne] at hc
      cases he : extractFirst? (redemptionMatch r.subscription r.asset r.capital) ex with
      | none => rw [he] at hc; cases hc
      | some pr =>
        obtain ⟨y, l⟩ := pr
        rw [he] at hc
        injection hc with hc
        subst hc
        obtain ⟨hp, hs2, hl2⟩ := extractFirst?_eq_some he
        refine ⟨hs.trans hs2, ?_⟩
        simp only [List.length_cons]
        omega

/-- C7: for a gp sender, `try_cancel_redemptions` fails when no
outstanding list exists; otherwise it runs `cancelAll`, which removes
for each supplied redemption the first stored record matching its
`(subscription, asset, capital)` triple (`redemptionMatch` ignores
`available_epoch_seconds`): if any supplied redemption has no match the
whole call fails and storage is untouched, and on success exactly one
record per supplied redemption has been removed (the result is a
sublist of the old list, shorter by the batch length). -/
theorem cancel_redemptions_spec (state : State) (store : Storage) (sender : String)
    (redemptions : List Redemption) (hgp : sender = state.gp) :
    (store.outstanding = none →
      try_cancel_redemptions state store sender redemptions =
        (store, .err "no outstanding redemptions to cancel"))
    ∧ (∀ ex, store.outstanding = some ex →
        (cancelAll ex redemptions = none →
          try_cancel_redemptions state store sender redemptions =
            (store, .err "no redemption found"))
        ∧ (∀ ex', cancelAll ex redemptions = some ex' →
            try_cancel_redemptions state store sender redemptions =
              ({ store with outstanding := some ex' }, .ok Response.empty)
            ∧ ex'.Sublist ex ∧ ex'.length + redemptions.length = ex.length)) := by
  subst hgp
  refine ⟨?_, ?_⟩
  · intro h
    rw [try_cancel_redemptions]
    simp [h]
  · intro ex hex
    refine ⟨?_, ?_⟩
    · intro hc
      rw [try_cancel_redemptions]
      simp [hex, hc]
    · intro ex' hc
      refine ⟨?_, (cancelAll_eq_some hc).1, (cancelAll_eq_some hc).2⟩
      rw [try_cancel_redemptions]
      simp [hex, hc]

/-- Witness for C7 at concrete inputs: cancelling `(sub_1, 5000,
10000)` (with a differing epoch field, which is ignored) removes
exactly the first record. -/
theorem cancel_redemptions_spec_witness :
    try_cancel_redemptions tState rStore "gp" [⟨"sub_1", 10000, 5000, some 99⟩] =
      ({ rStore with outstanding := some [⟨"sub_2", 10000, 5000, none⟩] }, .ok Response.empty)
    ∧ ([⟨"sub_2", 10000, 5000, none⟩] : List Redemption).Sublist
        [⟨"sub_1", 10000, 5000, none⟩, ⟨"sub_2", 10000, 5000, none⟩]
    ∧ ([⟨"sub_2", 10000, 5000, none⟩] : List Redemption).length
        + ([⟨"sub_1", 10000, 5000, some 99⟩] : List Redemption).length
        = ([⟨"sub_1", 10000, 5000, none⟩, ⟨"sub_2", 10000, 5000, none⟩]
            : List Redemption).length :=
  ((cancel_redemptions_spec tState rStore "gp" [⟨"sub_1", 10000, 5000, some 99⟩] rfl).2
    [⟨"sub_1", 10000, 5000, none⟩, ⟨"sub_2", 10000, 5000, none⟩] rfl).2
    [⟨"sub_2", 10000, 5000, none⟩] (by decide)

/-! ## C1: AcceptSubscriptions saves, not appends, the queue entry -/

/-- An asset-exchange entry present in storage before the accept, used
to exhibit the overwrite. -/
def oldEntry : AssetExchange := ⟨some 1, none, none, none⟩

/-- Fixture storage: `sub_1` eligible with a non-empty asset-exchange
queue. -/
def eStore : Storage :=
  { pending := [], eligible := ["sub_1"], accepted := [],
    asset_exchanges := [("sub_1", [oldEntry])], outstanding := none }

/-- C1 counterexample: accepting `sub_1` while its queue already holds
`oldEntry` leaves a queue of just the new entry — the pre-existing
entry is dropped, not left in place as the claim states. -/
theorem accept_overwrites_queue_counterexample :
    (try_accept_subscriptions tState eStore "gp" [⟨"sub_1", 20000⟩] noSubQ noAttrQ).2.isOk
      = true
    ∧ aeLookup (try_accept_subscriptions tState eStore "gp" [⟨"sub_1", 20000⟩] noSubQ
        noAttrQ).1.asset_exchanges "sub_1" = some [acceptEntry tState 20000]
    ∧ some [acceptEntry tState 20000] ≠ some (oldEntry :: [acceptEntry tState 20000]) := by
  decide

theorem aeLookup_aeSave_ne (m : AEMap) (k : String) (v : List AssetExchange) (x : String)
    (h : x ≠ k) : aeLookup (aeSave m k v) x = aeLookup m x := by
  have hkx : (k == x) = false := beq_eq_false_iff_ne.mpr fun hc => h hc.symm
  induction m with
  | nil => simp [aeSave, aeLookup, hkx]
  | cons hd tl ih =>
    obtain ⟨k', v'⟩ := hd
    by_cases hk : (k' == k) = true
    · have hkx' : (k' == x) = false := by rw [eq_of_beq hk]; exact hkx
      rw [aeSave, if_pos hk, aeLookup, aeLookup]
      rw [if_neg (by simp [hkx]), if_neg (by simp [hkx'])]
    · rw [aeSave, if_neg hk, aeLookup, aeLookup]
      by_cases hx : (k' == x) = true
      · rw [if_pos hx, if_pos hx]
      · rw [if_neg hx, if_neg hx]
        exact ih

/-- Inversion of one successful `acceptLoop` step: when the whole
batch succeeds, the head element passed the divisibility check, one of
the branch paths (eligible, gate-free pending, or gate-passing
pending), and the `i64` bound, and the loop continued on the map with
the head's one-entry queue saved. -/
theorem acceptLoop_cons_ok {state : State} {subQ : String → Except String SubState}
    {attrQ : String → Except String (List String)} {t : AcceptSubscription}
    {rest : List AcceptSubscription} {p e a : List String} {axs axs' : AEMap}
    {out : List String × List String × List String}
    (h : acceptLoop state subQ attrQ (t :: rest) p e a axs = (axs', .ok out)) :
    ∃ p' e', state.not_evenly_divisble t.commitment_in_capital = false
      ∧ acceptBranch state subQ attrQ t.subscription p e = .ok (p', e')
      ∧ state.capital_to_shares t.commitment_in_capital < 2 ^ 63
      ∧ acceptLoop state subQ attrQ rest p' e' (insertElem a t.subscription)
          (aeSave axs t.subscription [acceptEntry state t.commitment_in_capital])
          = (axs', .ok out) := by
  rw [acceptLoop] at h
  split at h
  · injection h with h1 h2
    cases h2
  · rename_i hdiv
    split at h
    · injection h with h1 h2
      cases h2
    · injection h with h1 h2
      cases h2
    · rename_i p' e' hb
      split at h
      · rename_i hsh
        exact ⟨p', e', Bool.eq_false_iff.mpr hdiv, hb, hsh, h⟩
      · injection h with h1 h2
        cases h2

/-- A successful `acceptLoop` run leaves the asset-exchange bindings
of addresses outside the batch untouched. -/
theorem acceptLoop_ok_lookup_untouched {state : State} {subQ : String → Except String SubState}
    {attrQ : String → Except String (List String)} :
    ∀ (accepts : List AcceptSubscription) (p e a : List String) (axs axs' : AEMap)
      (out : List String × List String × List String),
      acceptLoop state subQ attrQ accepts p e a axs = (axs', .ok out) →
      ∀ s, s ∉ accepts.map AcceptSubscription.subscription →
      aeLookup axs' s = aeLookup axs s := by
  intro accepts
  induction accepts with
  | nil =>
    intro p e a axs axs' out h s hs
    rw [acceptLoop] at h
    injection h with h1 h2
    rw [h1]
  | cons t rest ih =>
    intro p e a axs axs' out h s hs
    obtain ⟨p', e', hdiv, hb, hsh, hrec⟩ := acceptLoop_cons_ok h
    rw [List.map_cons] at hs
    have hneq : s ≠ t.subscription := fun hc => hs (by rw [hc]; exact List.mem_cons_self _ _)
    have hs_rest : s ∉ rest.map AcceptSubscription.subscription :=
      fun hc => hs (List.mem_cons_of_mem _ hc)
    calc aeLookup axs' s
        = aeLookup (aeSave axs t.subscription [acceptEntry state t.commitment_in_capital]) s :=
          ih p' e' (insertElem a t.subscription)
            (aeSave axs t.subscription [acceptEntry state t.commitment_in_capital])
            axs' out hrec s hs_rest
      _ = aeLookup axs s := aeLookup_aeSave_ne _ _ _ _ hneq

/-- After a successful `acceptLoop` run, every batch element whose
subscription does not recur later in the batch is bound to exactly its
one-entry queue, whatever the map held before. -/
theorem acceptLoop_ok_saves_entry {state : State} {subQ : String → Except String SubState}
    {attrQ : String → Except String (List String)} :
    ∀ (l1 : List AcceptSubscription) (t : AcceptSubscription) (l2 : List AcceptSubscription)
      (p e a : List String) (axs axs' : AEMap)
      (out : List String × List String × List String),
      acceptLoop state subQ attrQ (l1 ++ t :: l2) p e a axs = (axs', .ok out) →
      t.subscription ∉ l2.map AcceptSubscription.subscription →
      aeLookup axs' t.subscription = some [acceptEntry state t.commitment_in_capital] := by
  intro l1
  induction l1 with
  | nil =>
    intro t l2 p e a axs axs' out h hlast
    rw [List.nil_append] at h
    obtain ⟨p', e', hdiv, hb, hsh, hrec⟩ := acceptLoop_cons_ok h
    rw [acceptLoop_ok_lookup_untouched l2 p' e' (insertElem a t.subscription)
      (aeSave axs t.subscription [acceptEntry state t.commitment_in_capital])
      axs' out hrec t.subscription hlast]
    exact aeLookup_aeSave_self _ _ _
  | cons y l1 ih =>
    intro t l2 p e a axs axs' out h hlast
    rw [List.cons_append] at h
    obtain ⟨p', e', hdiv, hb, hsh, hrec⟩ := acceptLoop_cons_ok h
    exact ih t l2 p' e' (insertElem a y.subscription)
      (aeSave axs y.subscription [acceptEntry state y.commitment_in_capital])
      axs' out hrec hlast

/-- C1 amended: for every subscription accepted by
`AcceptSubscriptions` — any element of any batch the handler accepts,
through any admission path (eligible, gate-free pending, or
gate-passing pending), provided its address does not recur later in
the batch — the handler *saves* the one-entry queue `[{investment:
none, commitment_in_shares: some (commitment_in_capital /
capital_per_share), capital: none, date: none}]` for that
subscription, replacing whatever list was stored before; in the
reachable states where the queue was empty this is exactly one new
entry. -/
theorem accept_saves_single_entry_queue (state : State) (store : Storage) (sender : String)
    (l1 l2 : List AcceptSubscription) (t : AcceptSubscription)
    (subQ : String → Except String SubState) (attrQ : String → Except String (List String))
    (hok : (try_accept_subscriptions state store sender (l1 ++ t :: l2) subQ attrQ).2.isOk
      = true)
    (hlast : t.subscription ∉ l2.map AcceptSubscription.subscription) :
    aeLookup (try_accept_subscriptions state store sender (l1 ++ t :: l2) subQ
        attrQ).1.asset_exchanges t.subscription
      = some [acceptEntry state t.commitment_in_capital]
    ∧ (acceptEntry state t.commitment_in_capital).investment = none
    ∧ (acceptEntry state t.commitment_in_capital).commitment_in_shares
        = some (Int.ofNat (t.commitment_in_capital / state.capital_per_share))
    ∧ (acceptEntry state t.commitment_in_capital).capital = none
    ∧ (acceptEntry state t.commitment_in_capital).date = none := by
  refine ⟨?_, rfl, rfl, rfl, rfl⟩
  rw [try_accept_subscriptions] at hok ⊢
  by_cases hg : (sender != state.gp) = true
  · rw [if_pos hg] at hok
    simp [HResult.isOk] at hok
  · rw [if_neg hg] at hok ⊢
    rcases hres : acceptLoop state subQ attrQ (l1 ++ t :: l2) store.pending store.eligible
        store.accepted store.asset_exchanges with ⟨axs', r⟩
    rw [hres] at hok
    cases r with
    | ok v =>
      obtain ⟨p', e', a'⟩ := v
      show aeLookup axs' t.subscription = some [acceptEntry state t.commitment_in_capital]
      exact acceptLoop_ok_saves_entry l1 t l2 store.pending store.eligible store.accepted
        store.asset_exchanges axs' (p', e', a') hres hlast
    | err msg => simp [HResult.isOk] at hok
    | panicked => simp [HResult.isOk] at hok

/-- Fixture storage for the C1 witness: `sub_1` pending behind the
accreditation gate with a non-empty stored queue, `sub_2` eligible. -/
def gStore : Storage :=
  { pending := ["sub_1"], eligible := ["sub_2"], accepted := [],
    asset_exchanges := [("sub_1", [oldEntry])], outstanding := none }

/-- A wasm-smart querier returning a fixed subscription state whose lp
holds the `506c` accreditation under `okAttrQ`. -/
def okSubQ : String → Except String SubState :=
  fun _ => .ok ⟨"marketpalace", "lp", "raise_1", "raise_1.commitment",
    "raise_1.investment", "stable_coin", 1⟩

/-- An attribute querier asserting the `506c` accreditation. -/
def okAttrQ : String → Except String (List String) := fun _ => .ok ["506c"]

/-- Witness for the C1 amended theorem: in a two-element batch under
the accreditation gate, the pending `sub_1` (admitted through the
gate-passing path, second in the batch, over a non-empty stored queue)
ends with exactly the one-entry queue. -/
theorem accept_saves_single_entry_queue_witness :
    aeLookup (try_accept_subscriptions tState506 gStore "gp"
        ([⟨"sub_2", 20000⟩] ++ ⟨"sub_1", 20000⟩ :: []) okSubQ okAttrQ).1.asset_exchanges
        "sub_1"
      = some [acceptEntry tState506 20000]
    ∧ (acceptEntry tState506 20000).investment = none
    ∧ (acceptEntry tState506 20000).commitment_in_shares
        = some (Int.ofNat (20000 / tState506.capital_per_share))
    ∧ (acceptEntry tState506 20000).capital = none
    ∧ (acceptEntry tState506 20000).date = none :=
  accept_saves_single_entry_queue tState506 gStore "gp" [⟨"sub_2", 20000⟩] []
    ⟨"sub_1", 20000⟩ okSubQ okAttrQ (by decide) (by decide)

/-! ## C3: batch handlers write the asset-exchange map before full validation -/

/-- C3 counterexample: a two-element accept batch whose first element
succeeds and whose second element is in no set returns an error, yet
the asset-exchange map has already been overwritten by the first
element's save — persistent storage was mutated by a failing handler. -/
theorem accept_error_after_map_write_counterexample :
    (try_accept_subscriptions tState eStore "gp"
        [⟨"sub_1", 20000⟩, ⟨"sub_404", 100⟩] noSubQ noAttrQ).2.isErr = true
    ∧ (try_accept_subscriptions tState eStore "gp"
        [⟨"sub_1", 20000⟩, ⟨"sub_404", 100⟩] noSubQ noAttrQ).1.asset_exchanges
      ≠ eStore.asset_exchanges := by
  decide

/-- C3 amended: when `AcceptSubscriptions` or `CloseSubscriptions`
returns an error, the pending, eligible and accepted set singletons and
the outstanding-redemptions singleton are exactly as before the call
(their saves happen only after the whole batch is processed), but the
per-subscription asset-exchange map may already have been mutated by
earlier batch elements; the host's transactional rollback, not the
handler, restores it. -/
theorem failing_batch_preserves_set_singletons (state : State) (store : Storage)
    (sender : String) (accepts : List AcceptSubscription)
    (subQ : String → Except String SubState) (attrQ : String → Except String (List String))
    (subs : List String) (balQ : String → String → Except String Nat) :
    ((try_accept_subscriptions state store sender accepts subQ attrQ).2.isErr = true →
      (try_accept_subscriptions state store sender accepts subQ attrQ).1.pending = store.pending
      ∧ (try_accept_subscriptions state store sender accepts subQ attrQ).1.eligible
          = store.eligible
      ∧ (try_accept_subscriptions state store sender accepts subQ attrQ).1.accepted
          = store.accepted
      ∧ (try_accept_subscriptions state store sender accepts subQ attrQ).1.outstanding
          = store.outstanding)
    ∧ ((try_close_subscriptions state store sender subs balQ).2.isErr = true →
      (try_close_subscriptions state store sender subs balQ).1.pending = store.pending
      ∧ (try_close_subscriptions state store sender subs balQ).1.eligible = store.eligible
      ∧ (try_close_subscriptions state store sender subs balQ).1.accepted = store.accepted
      ∧ (try_close_subscriptions state store sender subs balQ).1.outstanding
          = store.outstanding) := by
  constructor
  · intro h
    by_cases hg : (sender != state.gp) = true
    · rw [try_accept_subscriptions, if_pos hg]
      exact ⟨rfl, rfl, rfl, rfl⟩
    · rcases hl : acceptLoop state subQ attrQ accepts store.pending store.eligible
          store.accepted store.asset_exchanges with ⟨axs', r⟩
      rw [try_accept_subscriptions, if_neg hg, hl] at h ⊢
      cases r with
      | ok v =>
        obtain ⟨p', e', a'⟩ := v
        simp [HResult.isErr] at h
      | err msg => exact ⟨rfl, rfl, rfl, rfl⟩
      | panicked => simp [HResult.isErr] at h
  · intro h
    by_cases hg : (sender != state.gp) = true
    · rw [try_close_subscriptions, if_pos hg]
      exact ⟨rfl, rfl, rfl, rfl⟩
    · rcases hl : closeLoop state balQ subs store.pending store.eligible
          store.accepted store.asset_exchanges with ⟨axs', r⟩
      rw [try_close_subscriptions, if_neg hg, hl] at h ⊢
      cases r with
      | ok v =>
        obtain ⟨p', e', a'⟩ := v
        simp [HResult.isErr] at h
      | err msg => exact ⟨rfl, rfl, rfl, rfl⟩
      | panicked => simp [HResult.isErr] at h

/-- Witness for the C3 amended theorem on concrete failing batches. -/
theorem failing_batch_preserves_set_singletons_witness :
    ((try_accept_subscriptions tState eStore "gp" [⟨"sub_1", 20000⟩, ⟨"sub_404", 100⟩]
        noSubQ noAttrQ).1.pending = eStore.pending
      ∧ (try_accept_subscriptions tState eStore "gp" [⟨"sub_1", 20000⟩, ⟨"sub_404", 100⟩]
          noSubQ noAttrQ).1.eligible = eStore.eligible
      ∧ (try_accept_subscriptions tState eStore "gp" [⟨"sub_1", 20000⟩, ⟨"sub_404", 100⟩]
          noSubQ noAttrQ).1.accepted = eStore.accepted
      ∧ (try_accept_subscriptions tState eStore "gp" [⟨"sub_1", 20000⟩, ⟨"sub_404", 100⟩]
          noSubQ noAttrQ).1.outstanding = eStore.outstanding)
    ∧ ((try_close_subscriptions tState eStore "gp" ["sub_404"]
          (fun _ _ => .ok 0)).1.pending = eStore.pending
      ∧ (try_close_subscriptions tState eStore "gp" ["sub_404"]
          (fun _ _ => .ok 0)).1.eligible = eStore.eligible
      ∧ (try_close_subscriptions tState eStore "gp" ["sub_404"]
          (fun _ _ => .ok 0)).1.accepted = eStore.accepted
      ∧ (try_close_subscriptions tState eStore "gp" ["sub_404"]
          (fun _ _ => .ok 0)).1.outstanding = eStore.outstanding) :=
  ⟨(failing_batch_preserves_set_singletons tState eStore "gp"
      [⟨"sub_1", 20000⟩, ⟨"sub_404", 100⟩] noSubQ noAttrQ ["sub_404"]
      (fun _ _ => .ok 0)).1 (by decide),
   (failing_batch_preserves_set_singletons tState eStore "gp"
      [⟨"sub_1", 20000⟩, ⟨"sub_404", 100⟩] noSubQ noAttrQ ["sub_404"]
      (fun _ _ => .ok 0)).2 (by decide)⟩

/-! ## C6: the per-subscription cases of CloseSubscriptions -/

/-- C6: a non-gp sender is refused outright; and for the subscription
at the head of the batch, `closeLoop` removes it from `pending` when
pending, else from `eligible` when eligible, else when accepted queries
the host balance of `commitment_denom` and either (zero) removes it
from `accepted` and deletes its asset-exchange list or (non-zero) fails
with "sub still has remaining commitment", and when in no set fails
with "no subscription pending or accepted to close". -/
theorem close_subscriptions_cases (state : State) (store : Storage) (sender : String)
    (balQ : String → String → Except String Nat) (sub : String) (rest : List String)
    (p e a : List String) (axs : AEMap) :
    (sender ≠ state.gp →
      try_close_subscriptions state store sender (sub :: rest) balQ =
        (store, .err "only gp can close subscriptions"))
    ∧ (sub ∈ p →
        closeLoop state balQ (sub :: rest) p e a axs =
          closeLoop state balQ rest (removeElem p sub) e a axs)
    ∧ (sub ∉ p → sub ∈ e →
        closeLoop state balQ (sub :: rest) p e a axs =
          closeLoop state balQ rest p (removeElem e sub) a axs)
    ∧ (sub ∉ p → sub ∉ e → sub ∈ a →
        ∀ bal, balQ sub state.commitment_denom = .ok bal →
        (bal = 0 →
          closeLoop state balQ (sub :: rest) p e a axs =
            closeLoop state balQ rest p e (removeElem a sub) (aeRemove axs sub))
        ∧ (bal ≠ 0 →
          closeLoop state balQ (sub :: rest) p e a axs =
            (axs, .err "sub still has remaining commitment")))
    ∧ (sub ∉ p → sub ∉ e → sub ∉ a →
        closeLoop state balQ (sub :: rest) p e a axs =
          (axs, .err "no subscription pending or accepted to close")) := by
  refine ⟨?_, ?_, ?_, ?_, ?_⟩
  · intro h
    rw [try_close_subscriptions]
    simp [h]
  · intro h
    rw [closeLoop, if_pos (contains_eq_true_iff.mpr h)]
  · intro h1 h2
    have hc1 : ¬(p.contains sub = true) := fun hc => h1 (contains_eq_true_iff.mp hc)
    rw [closeLoop, if_neg hc1, if_pos (contains_eq_true_iff.mpr h2)]
  · intro h1 h2 h3 bal hbal
    have hc1 : ¬(p.contains sub = true) := fun hc => h1 (contains_eq_true_iff.mp hc)
    have hc2 : ¬(e.contains sub = true) := fun hc => h2 (contains_eq_true_iff.mp hc)
    constructor
    · intro hz
      rw [closeLoop, if_neg hc1, if_neg hc2, if_pos (contains_eq_true_iff.mpr h3), hbal]
      simp [hz]
    · intro hnz
      rw [closeLoop, if_neg hc1, if_neg hc2, if_pos (contains_eq_true_iff.mpr h3), hbal]
      simp [hnz]
  · intro h1 h2 h3
    have hc1 : ¬(p.contains sub = true) := fun hc => h1 (contains_eq_true_iff.mp hc)
    have hc2 : ¬(e.contains sub = true) := fun hc => h2 (contains_eq_true_iff.mp hc)
    have hc3 : ¬(a.contains sub = true) := fun hc => h3 (contains_eq_true_iff.mp hc)
    rw [closeLoop, if_neg hc1, if_neg hc2, if_neg hc3]

/-- Witness for C6 on concrete inputs: the accepted-with-commitment
case fails as claimed, the nowhere case fails as claimed, and a bad
actor is refused. -/
theorem close_subscriptions_cases_witness :
    closeLoop tState (fun _ _ => .ok 100) ["sub_1"] [] [] ["sub_1"] [] =
      ([], .err "sub still has remaining commitment")
    ∧ closeLoop tState (fun _ _ => .ok 0) ["sub_9"] [] [] [] [] =
      ([], .err "no subscription pending or accepted to close")
    ∧ try_close_subscriptions tState tStore "bad_actor" ["sub_1"] (fun _ _ => .ok 0) =
      (tStore, .err "only gp can close subscriptions") :=
  ⟨((close_subscriptions_cases tState tStore "gp" (fun _ _ => .ok 100) "sub_1" [] [] []
      ["sub_1"] []).2.2.2.1 (by decide) (by decide) (by decide) 100 rfl).2 (by decide),
   (close_subscriptions_cases tState tStore "gp" (fun _ _ => .ok 0) "sub_9" [] [] [] []
      []).2.2.2.2 (by decide) (by decide) (by decide),
   (close_subscriptions_cases tState tStore "bad_actor" (fun _ _ => .ok 0) "sub_1" [] [] []
      [] []).1 (by decide)⟩

/-! ## C8: ProposeSubscription eligibility, reply id and attribute -/

/-- C8: when the attribute query succeeds, `try_propose_subscription`
leaves storage unchanged and returns exactly one instantiate
sub-message, tagged with reply id 1 exactly when
`acceptable_accreditations` is empty or intersects the sender's
attribute names (else 0), together with the response attribute
`eligible=<that boolean>`. -/
theorem propose_subscription_spec (state : State) (store : Storage)
    (contract_address sender : String) (initial_commitment : Option Nat)
    (attrQ : String → Except String (List String)) (attrs : List String)
    (hq : attrQ sender = .ok attrs) :
    ∃ r, try_propose_subscription state store contract_address sender initial_commitment attrQ
        = (store, .ok r)
      ∧ r.submessages.length = 1
      ∧ (∀ sm ∈ r.submessages, sm.msg.isInstantiate = true
          ∧ sm.reply_id = (if state.acceptable_accreditations = []
              ∨ ∃ x ∈ attrs, x ∈ state.acceptable_accreditations then 1 else 0))
      ∧ r.attributes = [("eligible",
          if state.acceptable_accreditations = []
            ∨ ∃ x ∈ attrs, x ∈ state.acceptable_accreditations then "true" else "false")] := by
  by_cases hemp : state.acceptable_accreditations = []
  · have hprop : state.acceptable_accreditations = []
        ∨ ∃ x ∈ attrs, x ∈ state.acceptable_accreditations := Or.inl hemp
    refine ⟨propose_response state contract_address sender initial_commitment true,
      ?_, rfl, ?_, ?_⟩
    · rw [try_propose_subscription, if_pos (by simp [hemp])]
    · intro sm hsm
      rw [List.mem_singleton.mp hsm]
      refine ⟨rfl, ?_⟩
      rw [if_pos hprop]
      rfl
    · rw [if_pos hprop]
      rfl
  · have hne : state.acceptable_accreditations.isEmpty = false := by
      cases hl : state.acceptable_accreditations with
      | nil => exact absurd hl hemp
      | cons hd tl => rfl
    by_cases hint : intersects attrs state.acceptable_accreditations = true
    · have hprop : state.acceptable_accreditations = []
          ∨ ∃ x ∈ attrs, x ∈ state.acceptable_accreditations :=
        Or.inr ((intersects_iff _ _).mp hint)
      refine ⟨propose_response state contract_address sender initial_commitment true,
        ?_, rfl, ?_, ?_⟩
      · rw [try_propose_subscription, if_neg (by simp [hne])]
        simp only [attributes, hq]
        rw [hint]
      · intro sm hsm
        rw [List.mem_singleton.mp hsm]
        refine ⟨rfl, ?_⟩
        rw [if_pos hprop]
        rfl
      · rw [if_pos hprop]
        rfl
    · have hint' : intersects attrs state.acceptable_accreditations = false :=
        Bool.eq_false_iff.mpr hint
      have hprop : ¬(state.acceptable_accreditations = []
          ∨ ∃ x ∈ attrs, x ∈ state.acceptable_accreditations) := by
        rintro (h | h)
        · exact hemp h
        · exact hint ((intersects_iff _ _).mpr h)
      refine ⟨propose_response state contract_address sender initial_commitment false,
        ?_, rfl, ?_, ?_⟩
      · rw [try_propose_subscription, if_neg (by simp [hne])]
        simp only [attributes, hq]
        rw [hint']
      · intro sm hsm
        rw [List.mem_singleton.mp hsm]
        refine ⟨rfl, ?_⟩
        rw [if_neg hprop]
        rfl
      · rw [if_neg hprop]
        rfl

/-- Witness for C8: with the gate `{"506c"}` and a sender holding
`506c`, the concrete propose yields the eligible response. -/
theorem propose_subscription_spec_witness :
    ∃ r, try_propose_subscription tState506 tStore "cosmos2contract" "lp" (some 100)
        (fun _ => .ok ["506c"]) = (tStore, .ok r)
      ∧ r.submessages.length = 1
      ∧ (∀ sm ∈ r.submessages, sm.msg.isInstantiate = true
          ∧ sm.reply_id = (if tState506.acceptable_accreditations = []
              ∨ ∃ x ∈ (["506c"] : List String), x ∈ tState506.acceptable_accreditations
              then 1 else 0))
      ∧ r.attributes = [("eligible",
          if tState506.acceptable_accreditations = []
            ∨ ∃ x ∈ (["506c"] : List String), x ∈ tState506.acceptable_accreditations
          then "true" else "false")] :=
  propose_subscription_spec tState506 tStore "cosmos2contract" "lp" (some 100)
    (fun _ => .ok ["506c"]) ["506c"] rfl

/-! ## C10: duplicate subscriptions in one accept batch -/

theorem not_mem_removeElem {l : List String} {x y : String} (h : x ∉ l) :
    x ∉ removeElem l y := fun hc => h (mem_removeElem.mp hc).1

theorem acceptBranch_ok_cases {state : State} {subQ : String → Except String SubState}
    {attrQ : String → Except String (List String)} {sub : String} {p e p' e' : List String}
    (h : acceptBranch state subQ attrQ sub p e = .ok (p', e')) :
    (sub ∈ e ∧ p' = p ∧ e' = removeElem e sub)
    ∨ (sub ∉ e ∧ sub ∈ p ∧ p' = removeElem p sub ∧ e' = e) := by
  rw [acceptBranch] at h
  split at h
  · rename_i hce
    injection h with h1
    injection h1 with hp he
    exact Or.inl ⟨contains_eq_true_iff.mp hce, hp.symm, he.symm⟩
  · rename_i hce
    have hnece : sub ∉ e := fun hm => hce (contains_eq_true_iff.mpr hm)
    split at h
    · rename_i hcp
      have hmp : sub ∈ p := contains_eq_true_iff.mp hcp
      split at h
      · injection h with h1
        injection h1 with hp he
        exact Or.inr ⟨hnece, hmp, hp.symm, he.symm⟩
      · split at h
        · cases h
        · split at h
          · cases h
          · cases h
          · split at h
            · injection h with h1
              injection h1 with hp he
              exact Or.inr ⟨hnece, hmp, hp.symm, he.symm⟩
            · cases h
    · cases h

theorem acceptBranch_no_panic {state : State} {subQ : String → Except String SubState}
    {attrQ : String → Except String (List String)} {sub : String} {p e : List String}
    (hq : ∀ x, ∃ v, attrQ x = .ok v) :
    acceptBranch state subQ attrQ sub p e ≠ .panicked := by
  rw [acceptBranch]
  by_cases hce : e.contains sub = true
  · rw [if_pos hce]
    intro h
    cases h
  · rw [if_neg hce]
    by_cases hcp : p.contains sub = true
    · rw [if_pos hcp]
      by_cases hie : state.acceptable_accreditations.isEmpty = true
      · rw [if_pos hie]
        intro h
        cases h
      · rw [if_neg hie]
        cases hsq : subQ sub with
        | error msg =>
          intro h
          cases h
        | ok ss =>
          obtain ⟨v, hv⟩ := hq ss.lp
          simp only [attributes, hv]
          by_cases hin : intersects v state.acceptable_accreditations = true
          · rw [if_pos hin]
            intro h
            cases h
          · rw [if_neg hin]
            intro h
            cases h
    · rw [if_neg hcp]
      intro h
      cases h

theorem acceptBranch_ok_self_removed {state : State} {subQ : String → Except String SubState}
    {attrQ : String → Except String (List String)} {sub : String} {p e p' e' : List String}
    (h : acceptBranch state subQ attrQ sub p e = .ok (p', e'))
    (hboth : ¬(sub ∈ p ∧ sub ∈ e)) : sub ∉ p' ∧ sub ∉ e' := by
  rcases acceptBranch_ok_cases h with ⟨hm, h1, h2⟩ | ⟨hne, hm, h1, h2⟩
  · subst h1
    subst h2
    exact ⟨fun hc => hboth ⟨hc, hm⟩, removeElem_self_not_mem _ _⟩
  · subst h1
    subst h2
    exact ⟨removeElem_self_not_mem _ _, hne⟩

theorem acceptBranch_ok_not_mem {state : State} {subQ : String → Except String SubState}
    {attrQ : String → Except String (List String)} {sub : String} {p e p' e' : List String}
    {x : String} (h : acceptBranch state subQ attrQ sub p e = .ok (p', e'))
    (hp : x ∉ p) (he : x ∉ e) : x ∉ p' ∧ x ∉ e' := by
  rcases acceptBranch_ok_cases h with ⟨_, h1, h2⟩ | ⟨_, _, h1, h2⟩
  · subst h1
    subst h2
    exact ⟨hp, not_mem_removeElem he⟩
  · subst h1
    subst h2
    exact ⟨not_mem_removeElem hp, he⟩

theorem acceptBranch_ok_not_both {state : State} {subQ : String → Except String SubState}
    {attrQ : String → Except String (List String)} {sub : String} {p e p' e' : List String}
    {x : String} (h : acceptBranch state subQ attrQ sub p e = .ok (p', e'))
    (hboth : ¬(x ∈ p ∧ x ∈ e)) : ¬(x ∈ p' ∧ x ∈ e') := by
  rcases acceptBranch_ok_cases h with ⟨_, h1, h2⟩ | ⟨_, _, h1, h2⟩
  · subst h1
    subst h2
    rintro ⟨hxp, hxe⟩
    exact hboth ⟨hxp, (mem_removeElem.mp hxe).1⟩
  · subst h1
    subst h2
    rintro ⟨hxp, hxe⟩
    exact hboth ⟨(mem_removeElem.mp hxp).1, hxe⟩

theorem acceptLoop_err_of_missing (state : State)
    (subQ : String → Except String SubState) (attrQ : String → Except String (List String))
    (hq : ∀ x, ∃ v, attrQ x = .ok v) (s : String) :
    ∀ (accepts : List AcceptSubscription) (p e a : List String) (axs : AEMap),
      (∃ t ∈ accepts, t.subscription = s) → s ∉ p → s ∉ e →
      (acceptLoop state subQ attrQ accepts p e a axs).2.isErr = true := by
  intro accepts
  induction accepts with
  | nil =>
    intro p e a axs hex hp he
    simp at hex
  | cons t rest ih =>
    intro p e a axs hex hp he
    rw [acceptLoop]
    by_cases hdiv : state.not_evenly_divisble t.commitment_in_capital = true
    · rw [if_pos hdiv]
      rfl
    · rw [if_neg hdiv]
      cases hb : acceptBranch state subQ attrQ t.subscription p e with
      | panicked => exact absurd hb (acceptBranch_no_panic hq)
      | err msg => rfl
      | ok pr =>
        obtain ⟨p', e'⟩ := pr
        by_cases hts : t.subscription = s
        · exfalso
          rcases acceptBranch_ok_cases hb with ⟨hm, _, _⟩ | ⟨_, hm, _, _⟩
          · exact he (hts ▸ hm)
          · exact hp (hts ▸ hm)
        · obtain ⟨hp', he'⟩ := acceptBranch_ok_not_mem hb hp he
          have hex' : ∃ t' ∈ rest, t'.subscription = s := by
            rcases hex with ⟨t', ht', hts'⟩
            rcases List.mem_cons.mp ht' with hh | hmem
            · exact absurd (hh ▸ hts') hts
            · exact ⟨t', hmem, hts'⟩
          by_cases hsh : state.capital_to_shares t.commitment_in_capital < 2 ^ 63
          · simp only [hsh, if_true]
            exact ih p' e' (insertElem a t.subscription)
              (aeSave axs t.subscription [acceptEntry state t.commitment_in_capital])
              hex' hp' he'
          · simp only [HResult.isErr]
            rw [if_neg hsh]

theorem acceptLoop_err_of_dup (state : State)
    (subQ : String → Except String SubState) (attrQ : String → Except String (List String))
    (hq : ∀ x, ∃ v, attrQ x = .ok v) (s : String) :
    ∀ (accepts : List AcceptSubscription) (p e a : List String) (axs : AEMap),
      2 ≤ accepts.countP (fun t => t.subscription == s) →
      ¬(s ∈ p ∧ s ∈ e) →
      (acceptLoop state subQ attrQ accepts p e a axs).2.isErr = true := by
  intro accepts
  induction accepts with
  | nil =>
    intro p e a axs h2 hboth
    simp [List.countP_nil] at h2
  | cons t rest ih =>
    intro p e a axs h2 hboth
    rw [acceptLoop]
    by_cases hdiv : state.not_evenly_divisble t.commitment_in_capital = true
    · rw [if_pos hdiv]
      rfl
    · rw [if_neg hdiv]
      cases hb : acceptBranch state subQ attrQ t.subscription p e with
      | panicked => exact absurd hb (acceptBranch_no_panic hq)
      | err msg => rfl
      | ok pr =>
        obtain ⟨p', e'⟩ := pr
        by_cases hsh : state.capital_to_shares t.commitment_in_capital < 2 ^ 63
        · simp only [hsh, if_true]
          by_cases hts : t.subscription = s
          · have h1 : 1 ≤ rest.countP (fun t' => t'.subscription == s) := by
              rw [List.countP_cons] at h2
              simp only [hts, beq_self_eq_true, if_true] at h2
              omega
            have hrest : ∃ t' ∈ rest, t'.subscription = s := by
              obtain ⟨t', hmem, hpred⟩ := List.countP_pos_iff.mp
                (show 0 < rest.countP (fun t' => t'.subscription == s) by omega)
              exact ⟨t', hmem, by simpa using hpred⟩
            obtain ⟨hp', he'⟩ := acceptBranch_ok_self_removed hb
              (show ¬(t.subscription ∈ p ∧ t.subscription ∈ e) by rw [hts]; exact hboth)
            rw [hts] at hp' he'
            exact acceptLoop_err_of_missing state subQ attrQ hq s rest p' e'
              (insertElem a t.subscription)
              (aeSave axs t.subscription [acceptEntry state t.commitment_in_capital])
              hrest hp' he'
          · have h2' : 2 ≤ rest.countP (fun t' => t'.subscription == s) := by
              have hbf : (t.subscription == s) = false := by simp [hts]
              rw [List.countP_cons, hbf] at h2
              simpa using h2
            exact ih p' e' (insertElem a t.subscription)
              (aeSave axs t.subscription [acceptEntry state t.commitment_in_capital])
              h2' (acceptBranch_ok_not_both hb hboth)
        · simp only [HResult.isErr]
          rw [if_neg hsh]

/-- C10: when a subscription address occurs in at least two elements of
an `AcceptSubscriptions` batch (and the pending/eligible sets are not
both holding it, as the registry invariant guarantees, and the
attribute queries succeed so the handler cannot panic first), the
handler returns an error: the first occurrence removes the address from
pending/eligible, so the second occurrence finds it in neither set. -/
theorem accept_duplicate_subscription_fails (state : State) (store : Storage)
    (sender : String) (accepts : List AcceptSubscription)
    (subQ : String → Except String SubState) (attrQ : String → Except String (List String))
    (s : String)
    (hdup : 2 ≤ accepts.countP (fun t => t.subscription == s))
    (hdisj : ¬(s ∈ store.pending ∧ s ∈ store.eligible))
    (hq : ∀ x, ∃ v, attrQ x = .ok v) :
    (try_accept_subscriptions state store sender accepts subQ attrQ).2.isErr = true := by
  rw [try_accept_subscriptions]
  by_cases hg : (sender != state.gp) = true
  · rw [if_pos hg]
    rfl
  · rw [if_neg hg]
    have hl := acceptLoop_err_of_dup state subQ attrQ hq s accepts store.pending
      store.eligible store.accepted store.asset_exchanges hdup hdisj
    rcases hres : acceptLoop state subQ attrQ accepts store.pending store.eligible
        store.accepted store.asset_exchanges with ⟨axs', r⟩
    cases r with
    | ok v =>
      obtain ⟨p', e', a'⟩ := v
      rw [hres] at hl
      simp [HResult.isErr] at hl
    | err msg => rfl
    | panicked =>
      rw [hres] at hl
      simp [HResult.isErr] at hl

/-- Witness for C10: a batch naming `sub_1` twice, with `sub_1`
pending, is rejected. -/
theorem accept_duplicate_subscription_fails_witness :
    (try_accept_subscriptions tState tStore "gp" [⟨"sub_1", 100⟩, ⟨"sub_1", 100⟩] noSubQ
      (fun _ => .ok [])).2.isErr = true :=
  accept_duplicate_subscription_fails tState tStore "gp" [⟨"sub_1", 100⟩, ⟨"sub_1", 100⟩]
    noSubQ (fun _ => .ok []) "sub_1" (by decide) (by decide) (fun x => ⟨[], rfl⟩)

end Raise
